import Mathlib

/-!
Verification development for the stream reduction and delivery pipeline of the
strava-mcp repository.  The definitions below are shallow embeddings of the
TypeScript sources `src/tools/getActivityStreams.ts` and
`src/tools/getBulkActivityStreams.ts`.  JavaScript numbers are modelled by
exact rationals (ℚ) and exact integers; every place where IEEE-754 rounding
could in principle diverge from exact arithmetic is marked by a comment at the
corresponding definition.  Fallible or absent JavaScript values (`undefined`,
missing object keys) are modelled with `Option`.
-/

namespace StravaMCP

/-! ### JavaScript numeric primitives -/

/-- JS `Math.round` on an exact rational: round half toward +∞,
i.e. `⌊q + 1/2⌋`.  (`Math.round(4.5) = 5`, `Math.round(-2.5) = -2`.) -/
def jsRoundQ (q : ℚ) : ℤ := ⌊q + 1/2⌋

/-- JS `Math.round(a / b)` for natural `a`, positive natural `b`, computed
exactly: `⌊a/b + 1/2⌋ = (2*a + b) / (2*b)` in natural floor division.
The source computes `a / b` in binary floating point; for the magnitudes the
pipeline handles (indices below 2^40) the exact and floating results agree. -/
def jsRoundDiv (a b : ℕ) : ℕ := (2 * a + b) / (2 * b)

/-- JS array indexing `l[i]`, which yields `undefined` out of range. -/
def jsGet {α : Type} (l : List α) (i : ℕ) : Option α := l[i]?

/-- JS `Array.prototype.slice(s, e)` for `0 ≤ s ≤ e`: the elements at
indices `[s, min(e, length))`. -/
def jsSlice {α : Type} (l : List α) (s e : ℕ) : List α := (l.take e).drop s

/-- JS `Math.abs`. -/
def jsAbs (q : ℚ) : ℚ := if q < 0 then -q else q

/-- Round to 1 decimal, as the JS idiom `Math.round(x * 10) / 10`. -/
def roundTo1 (q : ℚ) : ℚ := (jsRoundQ (q * 10) : ℚ) / 10

/-- Round to 2 decimals (`Number(x.toFixed(2))`, idealized to exact
half-up rounding; `toFixed` ties depend on the binary representation, which
no theorem below depends on). -/
def roundTo2 (q : ℚ) : ℚ := (jsRoundQ (q * 100) : ℚ) / 100

/-- Round to 5 decimals (`Math.round(x * 100000) / 100000`). -/
def roundTo5 (q : ℚ) : ℚ := (jsRoundQ (q * 100000) : ℚ) / 100000

/-- Round to 6 decimals (`Number(x.toFixed(6))`, idealized as above). -/
def roundTo6 (q : ℚ) : ℚ := (jsRoundQ (q * 1000000) : ℚ) / 1000000

/-! ### Extended JS numbers

`Math.max(...[])` is `-Infinity`, `Math.min(...[])` is `+Infinity`, and
`0/0` is `NaN`; these non-finite values flow through the unguarded
statistics code of `getActivityStreams.ts`, so the statistics value type
must represent them. -/

/-- A JS number that may be non-finite. -/
inductive ExtQ where
  | fin (q : ℚ)
  | posInf
  | negInf
  | nan
deriving DecidableEq, Repr

/-- JS `Math.max(...data)`: `-Infinity` on the empty spread. -/
def jsMax (l : List ℚ) : ExtQ :=
  match l with
  | [] => .negInf
  | x :: xs => .fin (xs.foldl max x)

/-- JS `Math.min(...data)`: `+Infinity` on the empty spread. -/
def jsMin (l : List ℚ) : ExtQ :=
  match l with
  | [] => .posInf
  | x :: xs => .fin (xs.foldl min x)

/-- JS `data.reduce((a,b) => a+b, 0) / data.length`: on an empty array this
is `0 / 0 = NaN`. -/
def jsAvg (l : List ℚ) : ExtQ :=
  if l.length = 0 then .nan else .fin (l.sum / l.length)

/-- JS `Math.round` lifted to possibly non-finite values
(`Math.round(NaN) = NaN`, `Math.round(±Infinity) = ±Infinity`). -/
def extRound (e : ExtQ) : ExtQ :=
  match e with
  | .fin q => .fin (jsRoundQ q : ℚ)
  | e => e

/-- `Math.round(x * 3.6 * 10) / 10` lifted to possibly non-finite values
(the km/h conversion applied to stream maxima/averages); `3.6` is idealized
to the exact rational `18/5`. -/
def extKph (e : ExtQ) : ExtQ :=
  match e with
  | .fin q => .fin (roundTo1 (q * (18/5)))
  | e => e

/-! ### The channel model

`BaseStream` from `getActivityStreams.ts` / `StreamData` from
`getBulkActivityStreams.ts`: a type tag, a sample array whose element shape
is determined by the tag, and informational fields. -/

inductive StreamType where
  | time | distance | latlng | altitude | velocity_smooth
  | heartrate | cadence | watts | temp | moving | grade_smooth
deriving DecidableEq, Repr

inductive Resolution where
  | low | medium | high
deriving DecidableEq, Repr

inductive SeriesType where
  | time | distance
deriving DecidableEq, Repr

/-- The element type of a stream's `data` array: `[lat, lng]` pairs for
`latlng`, booleans for `moving`, numbers for everything else. -/
abbrev SampleType : StreamType → Type
  | .latlng => ℚ × ℚ
  | .moving => Bool
  | _ => ℚ

instance : (t : StreamType) → DecidableEq (SampleType t) := by
  intro t
  cases t <;>
    first
      | exact inferInstanceAs (DecidableEq ℚ)
      | exact inferInstanceAs (DecidableEq (ℚ × ℚ))
      | exact inferInstanceAs (DecidableEq Bool)

/-- One fetched channel (interface `BaseStream`). -/
structure BaseStream where
  type : StreamType
  data : List (SampleType type)
  series_type : SeriesType
  original_size : ℕ
  resolution : Resolution

/-! ### Shape-preserving downsampler (`downsampleStream`) -/

/-- The uniform-stride branch of `downsampleStream` (types `latlng` and
`moving`): first sample, then `maxPoints - 2` samples at indices
`Math.round(i * step)` for `step = (length-1)/(maxPoints-1)`, then the last
sample.  Only reached when `data.length > maxPoints`, so `data` is nonempty
and, when the loop body runs (`maxPoints ≥ 3`), the `step` denominator is
positive; the `Option.toList`s mirror the source's `!== undefined` pushes. -/
def downsampleUniform {α : Type} (data : List α) (maxPoints : ℕ) : List α :=
  let len := data.length
  (jsGet data 0).toList
    ++ (List.range' 1 (maxPoints - 2)).filterMap
        (fun i => jsGet data (jsRoundDiv (i * (len - 1)) (maxPoints - 1)))
    ++ (jsGet data (len - 1)).toList

/-- The inner window scan of `downsampleStream`: starting from
`(targetIdx, targetIdx)`, scan `j` from `start` to `stop` (inclusive) and
move `maxIdx` to any strictly larger value, `minIdx` to any strictly
smaller value.  The `jsGet` matches mirror the `!== undefined` guards. -/
def windowScan (data : List ℚ) (targetIdx start stop : ℕ) : ℕ × ℕ :=
  (List.range' start (stop + 1 - start)).foldl
    (fun (p : ℕ × ℕ) j =>
      let mx := match jsGet data j, jsGet data p.1 with
        | some v, some mv => if mv < v then j else p.1
        | _, _ => p.1
      let mn := match jsGet data j, jsGet data p.2 with
        | some v, some mv => if v < mv then j else p.2
        | _, _ => p.2
      (mx, mn))
    (targetIdx, targetIdx)

/-- One iteration of the index-collection loop of `downsampleStream` for a
numeric stream: push `targetIdx`, then push the window maximum and minimum
indices when they differ from the candidate by more than the relative
threshold (`0.1` idealized to the exact rational `1/10`) and are not
already present. -/
def collectIndices (data : List ℚ) (maxPoints : ℕ) (indices : List ℕ) (i : ℕ) : List ℕ :=
  let len := data.length
  let targetIdx := jsRoundDiv (i * (len - 1)) (maxPoints - 1)
  let indices := indices ++ [targetIdx]
  let start := max 1 (targetIdx - 3)
  let stop := min (len - 2) (targetIdx + 3)
  let p := windowScan data targetIdx start stop
  let indices :=
    match jsGet data targetIdx, jsGet data p.1 with
    | some tv, some mv =>
        if p.1 ≠ targetIdx ∧ tv * (1/10) < jsAbs (mv - tv) then
          (if p.1 ∈ indices then indices else indices ++ [p.1])
        else indices
    | _, _ => indices
  match jsGet data targetIdx, jsGet data p.2 with
  | some tv, some mv =>
      if p.2 ≠ targetIdx ∧ tv * (1/10) < jsAbs (mv - tv) then
        (if p.2 ∈ indices then indices else indices ++ [p.2])
      else indices
  | _, _ => indices

/-- The index list built by the numeric branch of `downsampleStream`:
start from `[0]`, run the loop for `i = 1 .. maxPoints - 2`, then push the
last index, sort ascending (the source's `sort((a,b) => a-b)`), and remove
duplicates (the source's `Array.from(new Set(...))`; on a sorted list,
first-occurrence and last-occurrence deduplication coincide). -/
def numericIndices (data : List ℚ) (maxPoints : ℕ) : List ℕ :=
  (((List.range' 1 (maxPoints - 2)).foldl (collectIndices data maxPoints) [0]
      ++ [data.length - 1]).insertionSort (· ≤ ·)).dedup

/-- The numeric branch of `downsampleStream`: truncate the collected index
list to `maxPoints` (the source's `.slice(0, maxPoints)`) and look the
surviving indices up (`.map(idx => data[idx]).filter(v => v !== undefined)`). -/
def downsampleNumericData (data : List ℚ) (maxPoints : ℕ) : List ℚ :=
  ((numericIndices data maxPoints).take maxPoints).filterMap (jsGet data)

/-- `downsampleStream` of `getActivityStreams.ts`: identity when the data
already fits, the peak/valley-preserving numeric reduction for numeric
types, uniform-stride sampling for `latlng` and `moving`. -/
def downsampleStream (s : BaseStream) (maxPoints : ℕ) : List (SampleType s.type) :=
  match s with
  | ⟨.latlng, d, _, _, _⟩ => if d.length ≤ maxPoints then d else downsampleUniform d maxPoints
  | ⟨.moving, d, _, _, _⟩ => if d.length ≤ maxPoints then d else downsampleUniform d maxPoints
  | ⟨.time, d, _, _, _⟩ => if d.length ≤ maxPoints then d else downsampleNumericData d maxPoints
  | ⟨.distance, d, _, _, _⟩ => if d.length ≤ maxPoints then d else downsampleNumericData d maxPoints
  | ⟨.altitude, d, _, _, _⟩ => if d.length ≤ maxPoints then d else downsampleNumericData d maxPoints
  | ⟨.velocity_smooth, d, _, _, _⟩ => if d.length ≤ maxPoints then d else downsampleNumericData d maxPoints
  | ⟨.heartrate, d, _, _, _⟩ => if d.length ≤ maxPoints then d else downsampleNumericData d maxPoints
  | ⟨.cadence, d, _, _, _⟩ => if d.length ≤ maxPoints then d else downsampleNumericData d maxPoints
  | ⟨.watts, d, _, _, _⟩ => if d.length ≤ maxPoints then d else downsampleNumericData d maxPoints
  | ⟨.temp, d, _, _, _⟩ => if d.length ≤ maxPoints then d else downsampleNumericData d maxPoints
  | ⟨.grade_smooth, d, _, _, _⟩ => if d.length ≤ maxPoints then d else downsampleNumericData d maxPoints

/-! ### Normalized power (`calculateNormalizedPower`)

The function appears, with identical bodies, in both
`getActivityStreams.ts` and `getBulkActivityStreams.ts`; it is embedded
once.  The final step of the source is
`Math.round(Math.pow(mean, 0.25))`: the half-up rounding of the real
4th root.  For `mean ≥ 0` that rounding equals the least `n : ℕ` with
`mean^(1/4) < n + 1/2`, i.e. with `16 * mean < (2*n + 1)^4`, which is how
`round4thRoot` computes it exactly on rationals. -/

lemma round4thRoot_exists (x : ℚ) : ∃ n : ℕ, 16 * x < ((2 * n + 1 : ℕ) : ℚ) ^ 4 := by
  rcases le_or_lt (16 * x) 0 with h | h
  · exact ⟨0, by norm_num; linarith⟩
  · refine ⟨(⌈16 * x⌉).toNat, ?_⟩
    have hc : (0 : ℤ) ≤ ⌈16 * x⌉ := Int.ceil_nonneg h.le
    have h1 : (16 * x : ℚ) ≤ ((⌈16 * x⌉.toNat : ℕ) : ℚ) := by
      rw [show ((⌈16 * x⌉.toNat : ℕ) : ℚ) = ((⌈16 * x⌉.toNat : ℤ) : ℚ) by push_cast; ring,
        Int.toNat_of_nonneg hc]
      exact Int.le_ceil _
    set n : ℕ := ⌈16 * x⌉.toNat
    have hn : (0 : ℚ) ≤ (n : ℚ) := Nat.cast_nonneg n
    have h2 : ((n : ℚ)) < ((2 * n + 1 : ℕ) : ℚ) := by push_cast; linarith
    have h3 : (1 : ℚ) ≤ ((2 * n + 1 : ℕ) : ℚ) := by push_cast; linarith
    calc 16 * x ≤ (n : ℚ) := h1
      _ < ((2 * n + 1 : ℕ) : ℚ) := h2
      _ ≤ ((2 * n + 1 : ℕ) : ℚ) ^ 4 := le_self_pow₀ h3 (by norm_num)

/-- `Math.round(Math.pow(x, 0.25))` computed exactly: the least `n` with
`16 * x < (2*n + 1)^4`.  (The source computes the 4th root in floating
point; the idealization is exact real arithmetic.) -/
def round4thRoot (x : ℚ) : ℕ := Nat.find (round4thRoot_exists x)

/-- `calculateNormalizedPower` (identical in `getActivityStreams.ts` and
`getBulkActivityStreams.ts`): 0 when fewer than 30 samples are present,
otherwise the rounded 4th root of the mean 4th power of all 30-sample
moving-window averages.  The slice start `i - windowSize + 1` of the
source is integer arithmetic, written `i + 1 - windowSize` in ℕ. -/
def calculateNormalizedPower (powerData : List ℚ) : ℕ :=
  if powerData.length < 30 then 0
  else
    let windowSize : ℕ := 30
    let movingAvg := (List.range' (windowSize - 1) (powerData.length - (windowSize - 1))).map
      (fun i => ((jsSlice powerData (i + 1 - windowSize) (i + 1)).sum / (windowSize : ℚ)) ^ 4)
    round4thRoot (movingAvg.sum / movingAvg.length)

/-- Modelled from the spec's words (§4.1): the "30-sample (nominal
30-second) centered moving average raised to the 4th power, averaged,
then 4th-root" description followed literally — one window per sample
position `c` at which a full 30-sample window `[c-15, c+15)` centered at
`c` fits, then the same power-average-root-round pipeline.  Used only to
compare the spec's description against `calculateNormalizedPower`. -/
def specNormalizedPower (powerData : List ℚ) : ℕ :=
  if powerData.length < 30 then 0
  else
    let movingAvg := (List.range' 15 (powerData.length - 29)).map
      (fun c => ((jsSlice powerData (c - 15) (c + 15)).sum / (30 : ℚ)) ^ 4)
    round4thRoot (movingAvg.sum / movingAvg.length)

/-! ### Statistics of `getActivityStreams.ts` (`execute`, stream stats loop)

The switch adds `max`/`min`/`avg` for `heartrate`,
`max`/`avg`/`normalized_power` for `watts` and `max_kph`/`avg_kph` for
`velocity_smooth`; every other type gets only the base fields.  Note the
empty-array case is NOT guarded here: `Math.max(...[])` is `-Infinity`,
`Math.min(...[])` is `+Infinity` and the average is `NaN`. -/

/-- The per-stream statistics record; `none` models an absent JSON key. -/
structure StreamStats where
  total_points : ℕ
  resolution : Resolution
  series_type : SeriesType
  max : Option ExtQ := none
  min : Option ExtQ := none
  avg : Option ExtQ := none
  normalized_power : Option ℕ := none
  max_kph : Option ExtQ := none
  avg_kph : Option ExtQ := none
deriving DecidableEq, Repr

/-- The statistics switch of `getActivityStreams.ts` (lines 429–468). -/
def buildStreamStats (s : BaseStream) : StreamStats :=
  match s with
  | ⟨.heartrate, d, st, _, r⟩ =>
      { total_points := d.length, resolution := r, series_type := st,
        max := some (jsMax d), min := some (jsMin d), avg := some (extRound (jsAvg d)) }
  | ⟨.watts, d, st, _, r⟩ =>
      { total_points := d.length, resolution := r, series_type := st,
        max := some (jsMax d), avg := some (extRound (jsAvg d)),
        normalized_power := some (calculateNormalizedPower d) }
  | ⟨.velocity_smooth, d, st, _, r⟩ =>
      { total_points := d.length, resolution := r, series_type := st,
        max_kph := some (extKph (jsMax d)), avg_kph := some (extKph (jsAvg d)) }
  | ⟨.time, d, st, _, r⟩ => { total_points := d.length, resolution := r, series_type := st }
  | ⟨.distance, d, st, _, r⟩ => { total_points := d.length, resolution := r, series_type := st }
  | ⟨.latlng, d, st, _, r⟩ => { total_points := d.length, resolution := r, series_type := st }
  | ⟨.altitude, d, st, _, r⟩ => { total_points := d.length, resolution := r, series_type := st }
  | ⟨.cadence, d, st, _, r⟩ => { total_points := d.length, resolution := r, series_type := st }
  | ⟨.temp, d, st, _, r⟩ => { total_points := d.length, resolution := r, series_type := st }
  | ⟨.moving, d, st, _, r⟩ => { total_points := d.length, resolution := r, series_type := st }
  | ⟨.grade_smooth, d, st, _, r⟩ => { total_points := d.length, resolution := r, series_type := st }

/-! ### Dual-format encoders (`formatStreamDataCompact` / `formatStreamDataVerbose`) -/

/-- Output format of `get-activity-streams`. -/
inductive Format where
  | compact | verbose
deriving DecidableEq, Repr

/-- One encoded wire sample.  Compact encoding keeps bare values; verbose
encoding produces small records with derived fields. -/
inductive EncodedSample where
  | rawQ (v : ℚ)
  | rawPair (lat lng : ℚ)
  | rawBool (b : Bool)
  | timeObj (seconds : ℚ) (hh mm ss : ℕ)
  | distObj (meters km : ℚ)
  | velObj (mps kph : ℚ)
  | posObj (lat lng : ℚ)
deriving DecidableEq, Repr

/-- The `HH:MM:SS` part of `new Date(s*1000).toISOString().substr(11, 8)`
for `0 ≤ s`: hours within the day, minutes, whole seconds. -/
def hmsOfSeconds (q : ℚ) : ℕ × ℕ × ℕ :=
  let t := (⌊q⌋).toNat
  (t / 3600 % 24, t % 3600 / 60, t % 60)

/-- `formatStreamDataCompact`: the raw sample array unchanged (each switch
branch returns `data` as-is). -/
def formatStreamDataCompact (t : StreamType) (d : List (SampleType t)) : List EncodedSample :=
  match t, d with
  | .latlng, d => d.map (fun p => .rawPair p.1 p.2)
  | .moving, d => d.map .rawBool
  | .time, d => d.map .rawQ
  | .distance, d => d.map .rawQ
  | .altitude, d => d.map .rawQ
  | .velocity_smooth, d => d.map .rawQ
  | .heartrate, d => d.map .rawQ
  | .cadence, d => d.map .rawQ
  | .watts, d => d.map .rawQ
  | .temp, d => d.map .rawQ
  | .grade_smooth, d => d.map .rawQ

/-- `formatStreamDataVerbose`: per-sample records with derived values
(`toFixed` rounding idealized to exact half-up decimal rounding; no
theorem below depends on a rounding tie). -/
def formatStreamDataVerbose (t : StreamType) (d : List (SampleType t)) : List EncodedSample :=
  match t, d with
  | .latlng, d => d.map (fun p => .posObj (roundTo6 p.1) (roundTo6 p.2))
  | .time, d => d.map (fun s =>
      .timeObj s (hmsOfSeconds s).1 (hmsOfSeconds s).2.1 (hmsOfSeconds s).2.2)
  | .distance, d => d.map (fun m => .distObj m (roundTo2 (m / 1000)))
  | .velocity_smooth, d => d.map (fun v => .velObj v (roundTo1 (v * (18/5))))
  -- `altitude` has no case in the source's verbose switch: the `default`
  -- branch returns the raw numeric array unchanged.
  | .altitude, d => d.map .rawQ
  | .heartrate, d => d.map .rawQ
  | .cadence, d => d.map .rawQ
  | .watts, d => d.map .rawQ
  | .temp, d => d.map .rawQ
  | .grade_smooth, d => d.map (fun g => .rawQ (roundTo1 g))
  | .moving, d => d.map .rawBool

/-- Format dispatch, as at the two encoding sites of `execute`. -/
def formatStreamData (fmt : Format) (t : StreamType) (d : List (SampleType t)) :
    List EncodedSample :=
  match fmt with
  | .compact => formatStreamDataCompact t d
  | .verbose => formatStreamDataVerbose t d

/-! ### Chunk-size estimator (`calculateOptimalChunkSize`)

The sample-data refinement branch receives `JSON.stringify(sampleData)`,
of which only the string length is consumed; the optional sample is
therefore modelled by that length.  All divisions in the source are JS
float divisions followed by `Math.floor`; for at least one active
channel every denominator is positive and the exact ℕ floor division
used here coincides with the source (theorems about this function assume
`1 ≤ numStreamTypes`, which `execute` guarantees by erroring on an empty
stream set). -/
def calculateOptimalChunkSize (totalPoints numStreamTypes : ℕ) (format : Format)
    (sampleSize : Option ℕ) : ℕ :=
  let TARGET_SIZE_KB : ℕ := 50
  let bytesPerPoint : ℕ :=
    if format = .compact then numStreamTypes * 25 else numStreamTypes * 120
  let overhead : ℕ := 500
  let targetBytes : ℕ := TARGET_SIZE_KB * 1024
  let estimatedChunkSize : ℕ := (targetBytes - overhead) / bytesPerPoint
  let minChunkSize : ℕ := 50
  let maxChunkSize : ℕ := if format = .compact then 2000 else 1000
  let chunkSize : ℕ := max minChunkSize (min maxChunkSize estimatedChunkSize)
  match sampleSize with
  | some s =>
      if 0 < s then
        -- actualBytesPerPoint = s / min(100, totalPoints);
        -- chunk = floor((targetBytes - overhead) / (actualBytesPerPoint * numStreamTypes))
        let refined : ℕ := (targetBytes - overhead) * min 100 totalPoints / (s * numStreamTypes)
        max minChunkSize (min maxChunkSize refined)
      else chunkSize
  | none => chunkSize

/-! ### Response assembler (`execute` of `getActivityStreams.ts`)

The model starts where the pipeline starts: after the upstream fetch, with
the list of fetched streams as input.  Token handling and the network
error path (the `catch` block) sit outside the modelled pipeline. -/

/-- `Math.ceil(totalPoints / points_per_page)` over JS numbers: finite for
a nonzero page size, `Infinity` for size `0` with points present, and
`NaN` for `0 / 0`. -/
inductive JsCeil where
  | fin (z : ℤ)
  | inf
  | nan
deriving DecidableEq, Repr

/-- `totalPages` of the single-page branch. -/
def totalPagesOf (totalPoints : ℕ) (pointsPerPage : ℤ) : JsCeil :=
  if pointsPerPage = 0 then (if totalPoints = 0 then .nan else .inf)
  else .fin ⌈(totalPoints : ℚ) / (pointsPerPage : ℚ)⌉

/-- The page check `page < 1 || page > totalPages`; every comparison with
`NaN` is false, and `page > Infinity` is false. -/
def pageOutOfRange (page : ℤ) (tp : JsCeil) : Bool :=
  decide (page < 1) ||
    (match tp with
     | .fin z => decide (z < page)
     | .inf => false
     | .nan => false)

/-- The metadata envelope of a single paginated response. -/
structure PageMeta where
  available_types : List StreamType
  total_points : ℕ
  current_page : ℤ
  total_pages : JsCeil
  points_per_page : ℤ
  points_in_page : ℕ
  format : Format
  downsampled : Bool
  original_points : Option ℕ
deriving DecidableEq, Repr

/-- The metadata envelope of the first message of a chunked response. -/
structure ChunkedMeta where
  available_types : List StreamType
  total_points : ℕ
  total_chunks : ℕ
  chunk_size : ℕ
  format : Format
  downsampled : Bool
  original_points : Option ℕ
deriving DecidableEq, Repr

/-- One data message of a chunked response.  `ordinal` is the 0-based
chunk index; the source's message header displays it as message
`ordinal+2` of `total_chunks+1` covering 1-based inclusive points
`chunkStart+1 – chunkEnd`. -/
structure StreamChunk where
  ordinal : ℕ
  chunkStart : ℕ
  chunkEnd : ℕ
  data : List (StreamType × List EncodedSample)
deriving DecidableEq, Repr

/-- The possible outcomes of `execute` from the point where streams have
been fetched. -/
inductive ToolResponse where
  | emptyStreams
  | invalidPage (lo : ℕ) (hi : JsCeil)
  | chunked (meta : ChunkedMeta) (stats : List (StreamType × StreamStats))
      (chunks : List StreamChunk)
  | paginated (meta : PageMeta) (stats : List (StreamType × StreamStats))
      (data : List (StreamType × List EncodedSample))
deriving DecidableEq, Repr

/-- `{...stream, data: downsampleStream(stream, maxPoints)}`. -/
def applyDownsample (s : BaseStream) (maxPoints : ℕ) : BaseStream :=
  ⟨s.type, downsampleStream s maxPoints, s.series_type, s.original_size, s.resolution⟩

/-- The pipeline body of `execute` (lines 396–626 of
`getActivityStreams.ts`): empty-result error, optional downsampling
(`if (max_points && totalPoints > max_points)` — note `max_points = 0` is
falsy), statistics, then either full chunked delivery
(`points_per_page = -1`) or one validated page.
`Math.ceil(total / CHUNK_SIZE)` is the exact ℕ ceiling division, and the
page-slice indices are clamped with `toNat` exactly where the page check
has already forced them nonnegative. -/
def executeStreams (streams : List BaseStream) (page points_per_page : ℤ)
    (format : Format) (max_points : Option ℕ) : ToolResponse :=
  match streams with
  | [] => .emptyStreams
  | s0 :: rest =>
    let streams0 := s0 :: rest
    let totalPoints0 := s0.data.length
    let mp := max_points.getD 0
    let doDs : Bool := match max_points with
      | some m => decide (0 < m) && decide (m < totalPoints0)
      | none => false
    let streams1 := if doDs then streams0.map (fun s => applyDownsample s mp) else streams0
    -- `totalPoints = streams[0].data.length` re-read after the map
    let totalPoints := if doDs then (downsampleStream s0 mp).length else totalPoints0
    let originalPoints : Option ℕ := if doDs then some totalPoints0 else none
    let streamStats := streams1.map (fun s => (s.type, buildStreamStats s))
    if points_per_page = -1 then
      let CHUNK_SIZE := calculateOptimalChunkSize totalPoints streams1.length format none
      let numChunks := (totalPoints + CHUNK_SIZE - 1) / CHUNK_SIZE
      .chunked
        { available_types := streams1.map (·.type), total_points := totalPoints,
          total_chunks := numChunks, chunk_size := CHUNK_SIZE, format := format,
          downsampled := doDs, original_points := originalPoints }
        streamStats
        ((List.range numChunks).map (fun i =>
          let chunkStart := i * CHUNK_SIZE
          let chunkEnd := min (chunkStart + CHUNK_SIZE) totalPoints
          { ordinal := i, chunkStart := chunkStart, chunkEnd := chunkEnd,
            data := streams1.map (fun s =>
              (s.type, formatStreamData format s.type (jsSlice s.data chunkStart chunkEnd))) }))
    else
      let totalPages := totalPagesOf totalPoints points_per_page
      if pageOutOfRange page totalPages then
        .invalidPage 1 totalPages
      else
        let startIdx := ((page - 1) * points_per_page).toNat
        let endIdx := (min ((((page - 1) * points_per_page) : ℤ) + points_per_page)
          (totalPoints : ℤ)).toNat
        .paginated
          { available_types := streams1.map (·.type), total_points := totalPoints,
            current_page := page, total_pages := totalPages,
            points_per_page := points_per_page, points_in_page := endIdx - startIdx,
            format := format, downsampled := doDs, original_points := originalPoints }
          streamStats
          (streams1.map (fun s =>
            (s.type, formatStreamData format s.type (jsSlice s.data startIdx endIdx))))

/-- The `statistics` section of a successful response. -/
def responseStats : ToolResponse → Option (List (StreamType × StreamStats))
  | .chunked _ st _ => some st
  | .paginated _ st _ => some st
  | _ => none

/-- The data chunks of a chunked response. -/
def responseChunks : ToolResponse → Option (List StreamChunk)
  | .chunked _ _ cs => some cs
  | _ => none

/-! ### Bulk multi-activity fetching (`getBulkActivityStreams.ts`)

The model covers the request path without a `time_window` (the window
machinery slices sample ranges only; the batch/error topology under
verification precedes it and is independent of it).  Activity
identifiers are modelled as ℕ.  `Promise.allSettled` always resolves,
preserving request order, so the concurrent fetch phase is modelled by
its input: the list of per-activity settled outcomes in request order.
The JS response object is keyed by activity id, so the association-list
model is faithful for distinct ids (theorems assume `Nodup`). -/

/-- Output format of `get-bulk-activity-streams`. -/
inductive BulkFormat where
  | compact | stats_only | sampled
deriving DecidableEq, Repr

/-- The record built by `computeStats`; `none` models an absent key. -/
structure BulkStats where
  n : ℕ
  avg : Option ℚ := none
  max : Option ℚ := none
  min : Option ℚ := none
  np : Option ℕ := none
  avg_kph : Option ℚ := none
  max_kph : Option ℚ := none
deriving DecidableEq, Repr

/-- `Math.max(...data)` on data known nonempty (the `[]` default is
unreachable behind `computeStats`'s emptiness guard). -/
def jsMaxD : List ℚ → ℚ
  | [] => 0
  | x :: xs => xs.foldl max x

/-- `Math.min(...data)`, as `jsMaxD`. -/
def jsMinD : List ℚ → ℚ
  | [] => 0
  | x :: xs => xs.foldl min x

/-- `isNumericStream`. -/
def isNumericStream (t : StreamType) : Bool :=
  match t with
  | .latlng => false
  | .moving => false
  | _ => true

/-- `computeStats` of `getBulkActivityStreams.ts` — the guarded statistics
calculator: an empty sample array yields `{ n: 0 }` with every numeric
field absent. -/
def computeStats (type : StreamType) (data : List ℚ) : BulkStats :=
  if data.length = 0 then { n := 0 }
  else
    let avg := data.sum / (data.length : ℚ)
    let mx := jsMaxD data
    let mn := jsMinD data
    { n := data.length,
      avg := some (roundTo1 avg),
      max := some (roundTo1 mx),
      min := some (roundTo1 mn),
      np := if type = .watts ∧ 30 ≤ data.length then some (calculateNormalizedPower data)
            else none,
      avg_kph := if type = .velocity_smooth then some (roundTo1 (avg * (18/5))) else none,
      max_kph := if type = .velocity_smooth then some (roundTo1 (mx * (18/5))) else none }

/-- `sampleArray`: every `rate`-th element (`data.filter((_, i) => i % rate === 0)`). -/
def sampleArray {α : Type} (data : List α) (rate : ℕ) : List α :=
  if rate ≤ 1 then data
  else (data.enum.filter (fun p => p.1 % rate = 0)).map (·.2)

/-- `compactData`: per-type rounding of the wire representation. -/
def compactData (t : StreamType) (d : List (SampleType t)) : List EncodedSample :=
  match t, d with
  | .latlng, d => d.map (fun p => .rawPair (roundTo5 p.1) (roundTo5 p.2))
  | .velocity_smooth, d => d.map (fun v => .rawQ (roundTo1 v))
  | .altitude, d => d.map (fun v => .rawQ (roundTo1 v))
  | .grade_smooth, d => d.map (fun v => .rawQ (roundTo1 v))
  | .heartrate, d => d.map (fun v => .rawQ (jsRoundQ v : ℚ))
  | .cadence, d => d.map (fun v => .rawQ (jsRoundQ v : ℚ))
  | .watts, d => d.map (fun v => .rawQ (jsRoundQ v : ℚ))
  | .temp, d => d.map (fun v => .rawQ (jsRoundQ v : ℚ))
  | .time, d => d.map (fun v => .rawQ (jsRoundQ v : ℚ))
  | .distance, d => d.map (fun v => .rawQ (jsRoundQ v : ℚ))
  | .moving, d => d.map (fun b => .rawQ (if b then 1 else 0))

/-- The TS `data as number[]` view used before `computeStats`: the sample
array of the nine numeric stream types. -/
def numericView (s : BaseStream) : Option (List ℚ) :=
  match s with
  | ⟨.latlng, _, _, _, _⟩ => none
  | ⟨.moving, _, _, _, _⟩ => none
  | ⟨.time, d, _, _, _⟩ => some d
  | ⟨.distance, d, _, _, _⟩ => some d
  | ⟨.altitude, d, _, _, _⟩ => some d
  | ⟨.velocity_smooth, d, _, _, _⟩ => some d
  | ⟨.heartrate, d, _, _, _⟩ => some d
  | ⟨.cadence, d, _, _, _⟩ => some d
  | ⟨.watts, d, _, _, _⟩ => some d
  | ⟨.temp, d, _, _, _⟩ => some d
  | ⟨.grade_smooth, d, _, _, _⟩ => some d

/-- Value stored under one stream type of one activity: for `stats_only`
just the statistics (or the `{ n }` fallback when none were computed);
otherwise the `{ s?, d, n, r? }` record. -/
inductive BulkStreamValue where
  | statsOnly (st : BulkStats)
  | countOnly (n : ℕ)
  | full (s : Option BulkStats) (d : List EncodedSample) (n : ℕ) (r : Option ℕ)
deriving DecidableEq, Repr

/-- The per-stream body of the bulk `execute` loop (no time window). -/
def processBulkStream (format : BulkFormat) (sample_rate : ℕ)
    (include_statistics : Bool) (s : BaseStream) : StreamType × BulkStreamValue :=
  let stats : Option BulkStats :=
    if include_statistics && isNumericStream s.type then
      (numericView s).map (computeStats s.type)
    else none
  match format with
  | .stats_only =>
      (s.type, match stats with
        | some st => .statsOnly st
        | none => .countOnly s.data.length)
  | .sampled =>
      (s.type, .full stats (compactData s.type (sampleArray s.data sample_rate))
        s.data.length (some sample_rate))
  | .compact =>
      (s.type, .full stats (compactData s.type s.data) s.data.length none)

/-- One settled per-activity fetch outcome, as delivered by
`Promise.allSettled`. -/
inductive FetchOutcome where
  | rejected
  | fulfilled (streams : List BaseStream)

/-- One per-activity entry of the bulk response's `data` object. -/
inductive BulkEntry where
  | errorNoData
  | streams (vals : List (StreamType × BulkStreamValue))
deriving DecidableEq, Repr

/-- The `_` meta object of the bulk response. -/
structure BulkMeta where
  ok : ℕ
  fail : ℕ
  fmt : BulkFormat
  types : List StreamType
deriving DecidableEq, Repr

/-- The bulk response (the success path; the missing-token and outer
`catch` error paths sit outside the modelled pipeline, and
`Promise.allSettled` itself never throws). -/
structure BulkResponse where
  meta : BulkMeta
  data : List (ℕ × BulkEntry)
deriving DecidableEq, Repr

/-- The result-processing loop of the bulk `execute` (lines 137–225):
rejected fetches are skipped — `continue; // Skip failed fetches
silently` — fulfilled-but-empty activities get `{ error: 'no_data' }`,
and every other activity gets its processed streams.  A `for` loop
appending entries in order is a `filterMap`. -/
def bulkOutput (format : BulkFormat) (sample_rate : ℕ) (include_statistics : Bool)
    (results : List (ℕ × FetchOutcome)) : List (ℕ × BulkEntry) :=
  results.filterMap (fun r =>
    match r.2 with
    | .rejected => none
    | .fulfilled streams =>
        if streams.isEmpty then some (r.1, .errorNoData)
        else some (r.1, .streams
          (streams.map (processBulkStream format sample_rate include_statistics))))

/-- The bulk `execute` from the settled fetch outcomes on: build the
per-activity output, count successes (entries without an `error` key)
and failures (`activity_ids.length - successCount`), and assemble the
response. -/
def bulkExecute (results : List (ℕ × FetchOutcome)) (types : List StreamType)
    (format : BulkFormat) (sample_rate : ℕ) (include_statistics : Bool) : BulkResponse :=
  let output := bulkOutput format sample_rate include_statistics results
  let successCount := (output.filter (fun p => p.2 != BulkEntry.errorNoData)).length
  let failCount := results.length - successCount
  { meta := { ok := successCount, fail := failCount, fmt := format, types := types },
    data := output }

/-! ## Theorems -/

/-- `lo ≤ max lo (min hi x) ≤ hi` — the clamp pattern of
`calculateOptimalChunkSize`. -/
lemma clamp_mem (lo hi x : ℕ) (h : lo ≤ hi) :
    lo ≤ max lo (min hi x) ∧ max lo (min hi x) ≤ hi :=
  ⟨le_max_left _ _, max_le h (min_le_left _ _)⟩

/-- The chunk size always lands in `[50, format ceiling]`. -/
lemma calculateOptimalChunkSize_mem (T n : ℕ) (fmt : Format) (s : Option ℕ) :
    50 ≤ calculateOptimalChunkSize T n fmt s ∧
      calculateOptimalChunkSize T n fmt s ≤ (if fmt = Format.compact then 2000 else 1000) := by
  unfold calculateOptimalChunkSize
  rcases s with _ | s <;> cases fmt <;> dsimp only <;>
    first
      | exact clamp_mem _ _ _ (by decide)
      | (split_ifs <;> exact clamp_mem _ _ _ (by decide))

/-- **C5**: for every total sample count, active channel count (the
pipeline guarantees at least one), format selector and optional
representative sample payload, `calculateOptimalChunkSize` returns a
positive integer within `[floor, ceiling]`, where the floor is 50
samples and the ceiling is 2000 for `compact` and 1000 for `verbose`. -/
theorem calculateOptimalChunkSize_bounds (totalPoints numStreamTypes : ℕ)
    (format : Format) (sampleSize : Option ℕ) (_hn : 1 ≤ numStreamTypes) :
    0 < calculateOptimalChunkSize totalPoints numStreamTypes format sampleSize ∧
    50 ≤ calculateOptimalChunkSize totalPoints numStreamTypes format sampleSize ∧
    (format = .compact →
      calculateOptimalChunkSize totalPoints numStreamTypes format sampleSize ≤ 2000) ∧
    (format = .verbose →
      calculateOptimalChunkSize totalPoints numStreamTypes format sampleSize ≤ 1000) := by
  obtain ⟨h1, h2⟩ := calculateOptimalChunkSize_mem totalPoints numStreamTypes format sampleSize
  refine ⟨by omega, h1, fun hf => ?_, fun hf => ?_⟩ <;> subst hf <;> simpa using h2

/-- Witness for **C5** at a concrete input. -/
theorem calculateOptimalChunkSize_bounds_witness :
    0 < calculateOptimalChunkSize 10000 5 .compact none ∧
    50 ≤ calculateOptimalChunkSize 10000 5 .compact none ∧
    (Format.compact = .compact → calculateOptimalChunkSize 10000 5 .compact none ≤ 2000) ∧
    (Format.compact = .verbose → calculateOptimalChunkSize 10000 5 .compact none ≤ 1000) :=
  calculateOptimalChunkSize_bounds 10000 5 .compact none (by norm_num)

/-- The numeric downsampling branch never exceeds the ceiling, thanks to
the final `.slice(0, maxPoints)`. -/
lemma downsampleNumericData_length_le (d : List ℚ) (mp : ℕ) :
    (downsampleNumericData d mp).length ≤ mp := by
  unfold downsampleNumericData
  exact le_trans (List.length_filterMap_le _ _) (by simp)

/-- The uniform branch emits at most `1 + (mp - 2) + 1 ≤ mp` samples for
`mp ≥ 2`. -/
lemma downsampleUniform_length_le {α : Type} (d : List α) (mp : ℕ) (h : 2 ≤ mp) :
    (downsampleUniform d mp).length ≤ mp := by
  unfold downsampleUniform
  simp only [List.length_append]
  have h1 : (jsGet d 0).toList.length ≤ 1 := by cases jsGet d 0 <;> simp
  have h2 : ((List.range' 1 (mp - 2)).filterMap
      (fun i => jsGet d (jsRoundDiv (i * (d.length - 1)) (mp - 1)))).length ≤ mp - 2 :=
    le_trans (List.length_filterMap_le _ _) (by simp)
  have h3 : (jsGet d (d.length - 1)).toList.length ≤ 1 := by
    cases jsGet d (d.length - 1) <;> simp
  omega

/-- **C2**: for every channel and every ceiling `c ≥ 2`, the sample
array returned by `downsampleStream` has length at most `c`. -/
theorem downsampleStream_length_le (s : BaseStream) (c : ℕ) (hc : 2 ≤ c) :
    (downsampleStream s c).length ≤ c := by
  rcases s with ⟨t, d, st, os, r⟩
  cases t <;> dsimp only [downsampleStream] <;> split <;>
    first
      | assumption
      | exact downsampleNumericData_length_le _ _
      | exact downsampleUniform_length_le _ _ hc

/-- Witness for **C2**: a channel of 3 samples reduced to ceiling 2. -/
theorem downsampleStream_length_le_witness :
    (2 : ℕ) ≤ 2 ∧
      (downsampleStream ⟨.heartrate, [100, 110, 120], .time, 3, .medium⟩ 2).length ≤ 2 :=
  ⟨le_refl 2, downsampleStream_length_le ⟨.heartrate, [100, 110, 120], .time, 3, .medium⟩ 2 (le_refl 2)⟩

/-- **C3**: evaluation of `downsampleStream` at the failing input.  The
channel `[1, 1, 0, 1, 1, 10, 1, 1, 100, 42]` (10 samples) downsampled to
ceiling 3 yields `[1, 0, 10]`: the retained peak index 8 and valley
index 2 push the collected index list `[0, 2, 5, 8, 9]` over the
ceiling, and `.slice(0, 3)` then drops the tail — including the final
sample index 9 — so the last output sample is 10 although the input's
last sample is 42, contradicting the boundary-preservation contract
(and the source's own comment "Always preserve first and last points"
and its test "preserves first and last points"). -/
theorem downsampleStream_drops_last_sample :
    downsampleStream ⟨.heartrate, [1, 1, 0, 1, 1, 10, 1, 1, 100, 42], .time, 10, .medium⟩ 3
        = [1, 0, 10] ∧
      (3 : ℕ) < ([1, 1, 0, 1, 1, 10, 1, 1, 100, 42] : List ℚ).length ∧
      ([1, 1, 0, 1, 1, 10, 1, 1, 100, 42] : List ℚ).getLast? = some 42 ∧
      ([1, 0, 10] : List ℚ).getLast? = some 10 ∧ (10 : ℚ) ≠ 42 := by
  refine ⟨?_, by norm_num, rfl, rfl, by norm_num⟩
  show downsampleNumericData [1, 1, 0, 1, 1, 10, 1, 1, 100, 42] 3 = [1, 0, 10]
  unfold downsampleNumericData numericIndices
  norm_num [collectIndices, windowScan, jsGet, jsAbs, jsRoundDiv, List.range',
    List.insertionSort, List.orderedInsert, List.dedup_cons_of_mem,
    List.dedup_cons_of_not_mem, List.filterMap_cons]

/-- **C4** (counterexample): the statistics switch of
`getActivityStreams.ts` does not guard the empty case — an empty
`heartrate` channel produces `max = -Infinity`, `min = +Infinity` and
`avg = NaN` rather than omitting the numeric fields. -/
theorem buildStreamStats_empty_heartrate_cex :
    (buildStreamStats ⟨.heartrate, [], .time, 0, .medium⟩).max = some ExtQ.negInf ∧
    (buildStreamStats ⟨.heartrate, [], .time, 0, .medium⟩).min = some ExtQ.posInf ∧
    (buildStreamStats ⟨.heartrate, [], .time, 0, .medium⟩).avg = some ExtQ.nan ∧
    (buildStreamStats ⟨.heartrate, [], .time, 0, .medium⟩).total_points = 0 := by
  refine ⟨rfl, rfl, rfl, rfl⟩

/-- **C4** (amended): in the bulk tool's `computeStats` the empty case is
guarded as claimed — count 0, all numeric fields omitted — and the
single-activity statistics builder still reports a sample count of 0 on
an empty channel (but, per the counterexample, without omitting the
numeric fields for the kinds that have them). -/
theorem computeStats_empty_guarded :
    (∀ t : StreamType, computeStats t [] =
      { n := 0, avg := none, max := none, min := none,
        np := none, avg_kph := none, max_kph := none }) ∧
    (∀ (t : StreamType) (st : SeriesType) (r : Resolution),
      (buildStreamStats ⟨t, [], st, 0, r⟩).total_points = 0) :=
  ⟨fun t => rfl, fun t st r => by cases t <;> rfl⟩

/-- **C9**: for the same fetched channels and identical other request
parameters, the statistics section of the response is identical whether
`compact` or `verbose` is chosen — the format selector never reaches the
statistics computation. -/
theorem statistics_format_noninterference (streams : List BaseStream)
    (page points_per_page : ℤ) (max_points : Option ℕ) :
    responseStats (executeStreams streams page points_per_page .compact max_points) =
      responseStats (executeStreams streams page points_per_page .verbose max_points) := by
  cases streams with
  | nil => rfl
  | cons s0 rest =>
    unfold executeStreams
    dsimp only
    generalize (match max_points with
      | some m => decide (0 < m) && decide (m < s0.data.length)
      | none => false) = b
    cases b with
    | false =>
        simp only [Bool.false_eq_true, if_false]
        split_ifs <;> rfl
    | true =>
        simp only [eq_self_iff_true, if_true]
        split_ifs <;> rfl

/-- The trailing 30-sample windows enumerated by the source
(`i = 29 .. len-1`, window `[i-29, i]`) are exactly the centered
30-sample windows of the spec (`c = 15 .. len-15`, window `[c-15, c+14]`):
both enumerate every contiguous 30-sample window once, in order. -/
lemma movingAvg_trailing_eq_centered (d : List ℚ) (k : ℕ) :
    (List.range' 29 k).map (fun i => ((jsSlice d (i + 1 - 30) (i + 1)).sum / (30 : ℚ)) ^ 4)
      = (List.range' 15 k).map (fun c => ((jsSlice d (c - 15) (c + 15)).sum / (30 : ℚ)) ^ 4) := by
  rw [List.range'_eq_map_range, List.range'_eq_map_range, List.map_map, List.map_map]
  refine List.map_congr_left (fun j _ => ?_)
  simp only [Function.comp_apply]
  have e1 : 29 + j + 1 - 30 = j := by omega
  have e2 : 29 + j + 1 = 30 + j := by omega
  have e3 : 15 + j - 15 = j := by omega
  have e4 : 15 + j + 15 = 30 + j := by omega
  rw [e1, e2, e3, e4]

/-- **C7**: fewer than 30 power samples yield normalized power 0 (not an
error); otherwise `calculateNormalizedPower` computes exactly the spec's
"30-sample centered moving average → 4th power → average → 4th root →
round" algorithm (the source's trailing window labelling enumerates the
same windows). -/
theorem calculateNormalizedPower_spec (powerData : List ℚ) :
    (powerData.length < 30 → calculateNormalizedPower powerData = 0) ∧
      calculateNormalizedPower powerData = specNormalizedPower powerData := by
  constructor
  · intro h
    unfold calculateNormalizedPower
    rw [if_pos h]
  · unfold calculateNormalizedPower specNormalizedPower
    rcases lt_or_ge powerData.length 30 with h | h
    · rw [if_pos h, if_pos h]
    · rw [if_neg (by omega), if_neg (by omega)]
      dsimp only
      simp only [Nat.cast_ofNat, show (30 : ℕ) - 1 = 29 from rfl]
      rw [movingAvg_trailing_eq_centered]

/-- Witness for **C7** at a 2-sample power stream. -/
theorem calculateNormalizedPower_spec_witness :
    calculateNormalizedPower [100, 200] = 0 ∧
      calculateNormalizedPower [100, 200] = specNormalizedPower [100, 200] :=
  ⟨(calculateNormalizedPower_spec [100, 200]).1 (by norm_num),
    (calculateNormalizedPower_spec [100, 200]).2⟩

/-- Both encoders send the empty sample array to the empty output. -/
lemma formatStreamData_nil (fmt : Format) (t : StreamType) :
    formatStreamData fmt t ([] : List (SampleType t)) = [] := by
  cases fmt <;> cases t <;> rfl

/-- **C10**: with `points_per_page = 0` and `page = 1` on a non-empty
fetched channel set, the call neither divides by zero nor rejects the
page: `total_pages` evaluates to the JS `Infinity`, the page check
passes, the slice taken is `[0, 0)`, and a non-error paginated response
with an empty data array for every channel is returned. -/
theorem executeStreams_zero_page_size (s0 : BaseStream) (rest : List BaseStream) (fmt : Format)
    (hT : 1 ≤ s0.data.length) :
    ∃ meta stats,
      executeStreams (s0 :: rest) 1 0 fmt none =
        ToolResponse.paginated meta stats
          ((s0 :: rest).map (fun s => (s.type, ([] : List EncodedSample)))) ∧
      meta.total_pages = JsCeil.inf ∧
      meta.total_points = s0.data.length ∧
      meta.points_in_page = 0 := by
  have hmain : executeStreams (s0 :: rest) 1 0 fmt none =
      ToolResponse.paginated
        { available_types := (s0 :: rest).map (·.type),
          total_points := s0.data.length,
          current_page := 1, total_pages := .inf, points_per_page := 0,
          points_in_page := 0, format := fmt, downsampled := false, original_points := none }
        ((s0 :: rest).map (fun s => (s.type, buildStreamStats s)))
        ((s0 :: rest).map (fun s => (s.type, ([] : List EncodedSample)))) := by
    unfold executeStreams
    dsimp only
    simp only [Bool.false_eq_true, if_false]
    rw [if_neg (by norm_num : ¬((0:ℤ) = -1))]
    rw [show totalPagesOf s0.data.length 0 = JsCeil.inf from by
      unfold totalPagesOf; rw [if_pos rfl, if_neg (by omega)]]
    rw [show pageOutOfRange 1 JsCeil.inf = false from rfl]
    simp only [Bool.false_eq_true, if_false]
    simp only [show ((1:ℤ) - 1) * 0 + 0 = 0 from by norm_num,
      show ((1:ℤ) - 1) * 0 = 0 from by norm_num, show (0:ℤ) + 0 = 0 from by norm_num]
    rw [show (0:ℤ) ⊓ ((s0.data.length : ℕ) : ℤ) = 0 from min_eq_left (by positivity)]
    norm_num [ToolResponse.paginated.injEq]
    exact ⟨by rw [show jsSlice s0.data 0 0 = [] from rfl, formatStreamData_nil],
      fun a _ => by rw [show jsSlice a.data 0 0 = [] from rfl, formatStreamData_nil]⟩
  exact ⟨_, _, hmain, rfl, rfl, rfl⟩

/-- Witness for **C10**: one heart-rate channel with a single sample. -/
theorem executeStreams_zero_page_size_witness :
    ∃ meta stats,
      executeStreams [⟨.heartrate, [100], .time, 1, .low⟩] 1 0 .compact none =
        ToolResponse.paginated meta stats [(StreamType.heartrate, ([] : List EncodedSample))] ∧
      meta.total_pages = JsCeil.inf ∧
      meta.total_points = 1 ∧
      meta.points_in_page = 0 :=
  executeStreams_zero_page_size ⟨.heartrate, [100], .time, 1, .low⟩ [] .compact (by norm_num)

/-- The source's `Math.min(startIdx + size, totalPoints)` clamp is
redundant relative to slice clamping: slicing to `min b length` equals
slicing to `b`. -/
lemma jsSlice_clamp {α : Type} (l : List α) (a b : ℕ) :
    jsSlice l a (min b l.length) = jsSlice l a b := by
  unfold jsSlice
  rcases le_total b l.length with h | h
  · rw [min_eq_left h]
  · rw [min_eq_right h, List.take_of_length_le h, List.take_of_length_le (le_refl _)]

/-- **C6**: in single-paginated-page mode (page size ≥ 1, aligned
channels), the assembler returns the invalid-page error naming the valid
range `1 .. ceil(total / points_per_page)` if and only if `page < 1` or
`page > ceil(total / points_per_page)`; for any page inside the range it
returns, without error, the `[(page-1)*size, page*size)` slice of every
active channel. -/
theorem paginated_page_validation (s0 : BaseStream) (rest : List BaseStream) (fmt : Format)
    (pp : ℤ) (hpp : 1 ≤ pp)
    (hAlign : ∀ s ∈ rest, s.data.length = s0.data.length) :
    (∀ page : ℤ,
      (executeStreams (s0 :: rest) page pp fmt none =
          ToolResponse.invalidPage 1 (.fin ⌈(s0.data.length : ℚ) / (pp : ℚ)⌉))
        ↔ (page < 1 ∨ ⌈(s0.data.length : ℚ) / (pp : ℚ)⌉ < page)) ∧
    (∀ p : ℕ, 1 ≤ p → (p : ℤ) ≤ ⌈(s0.data.length : ℚ) / (pp : ℚ)⌉ →
      ∃ meta stats,
        executeStreams (s0 :: rest) (p : ℤ) pp fmt none =
          ToolResponse.paginated meta stats
            ((s0 :: rest).map (fun s =>
              (s.type, formatStreamData fmt s.type
                (jsSlice s.data ((p - 1) * pp.toNat) (p * pp.toNat))))) ∧
        meta.current_page = (p : ℤ) ∧
        meta.total_pages = .fin ⌈(s0.data.length : ℚ) / (pp : ℚ)⌉) := by
  set T := s0.data.length with hTdef
  set cd : ℤ := ⌈(T : ℚ) / (pp : ℚ)⌉ with hcd
  have hppne : ¬ pp = -1 := by omega
  have hpp0 : ¬ pp = 0 := by omega
  have htp : totalPagesOf T pp = .fin cd := by
    unfold totalPagesOf; rw [if_neg hpp0]
  have hexec : ∀ page : ℤ, executeStreams (s0 :: rest) page pp fmt none =
      (if pageOutOfRange page (JsCeil.fin cd) = true then
        ToolResponse.invalidPage 1 (.fin cd)
      else
        ToolResponse.paginated
          { available_types := (s0 :: rest).map (·.type), total_points := T,
            current_page := page, total_pages := .fin cd, points_per_page := pp,
            points_in_page := (min ((page - 1) * pp + pp) (T : ℤ)).toNat - ((page - 1) * pp).toNat,
            format := fmt, downsampled := false, original_points := none }
          ((s0 :: rest).map (fun s => (s.type, buildStreamStats s)))
          ((s0 :: rest).map (fun s => (s.type, formatStreamData fmt s.type
            (jsSlice s.data ((page - 1) * pp).toNat (min ((page - 1) * pp + pp) (T : ℤ)).toNat))))) := by
    intro page
    unfold executeStreams
    dsimp only
    simp only [Bool.false_eq_true, if_false]
    rw [if_neg hppne, htp]
  constructor
  · intro page
    rcases hb : pageOutOfRange page (JsCeil.fin cd) with _ | _
    · -- false: valid page
      rw [hexec page, hb]
      simp only [Bool.false_eq_true, if_false]
      constructor
      · intro h; exact absurd h (by simp)
      · intro h
        exfalso
        simp only [pageOutOfRange, Bool.or_eq_false_iff, decide_eq_false_iff_not] at hb
        omega
    · -- true: invalid page
      rw [hexec page, hb]
      simp only [if_true, true_iff]
      simp only [pageOutOfRange, Bool.or_eq_true, decide_eq_true_eq] at hb
      exact hb
  · intro p hp1 hpcd
    have hb : pageOutOfRange (p : ℤ) (JsCeil.fin cd) = false := by
      simp only [pageOutOfRange, Bool.or_eq_false_iff, decide_eq_false_iff_not]
      constructor
      · omega
      · omega
    rw [hexec p, hb]
    simp only [Bool.false_eq_true, if_false]
    refine ⟨{ available_types := (s0 :: rest).map (·.type), total_points := T,
              current_page := (p:ℤ), total_pages := .fin cd, points_per_page := pp,
              points_in_page := (min (((p:ℤ) - 1) * pp + pp) (T : ℤ)).toNat - (((p:ℤ) - 1) * pp).toNat,
              format := fmt, downsampled := false, original_points := none },
      (s0 :: rest).map (fun s => (s.type, buildStreamStats s)), ?_, rfl, rfl⟩
    congr 1
    refine List.map_congr_left (fun s hs => ?_)
    have hlen : s.data.length = T := by
      rcases List.mem_cons.mp hs with h | h
      · rw [h]
      · exact hAlign s h
    have hc : ((p - 1 : ℕ) : ℤ) = (p : ℤ) - 1 := by omega
    have hstart : (((p : ℤ) - 1) * pp).toNat = (p - 1) * pp.toNat := by
      have h0 : ((p:ℤ) - 1) * pp = (((p - 1) * pp.toNat : ℕ) : ℤ) := by
        rw [Nat.cast_mul, hc, Int.toNat_of_nonneg (by omega : (0:ℤ) ≤ pp)]
      rw [h0, Int.toNat_natCast]
    have hend : (min (((p : ℤ) - 1) * pp + pp) (T : ℤ)).toNat = min (p * pp.toNat) T := by
      have h1 : ((p:ℤ) - 1) * pp + pp = (((p * pp.toNat) : ℕ) : ℤ) := by
        rw [Nat.cast_mul, Int.toNat_of_nonneg (by omega : (0:ℤ) ≤ pp)]
        ring
      rw [h1, ← Nat.cast_min, Int.toNat_natCast]
    rw [hstart, hend, ← hlen, jsSlice_clamp]

set_option maxRecDepth 4000 in
/-- Witness for **C6** — the spec scenario: 500 samples,
`points_per_page = 100`, `page = 6` gives the invalid-page error naming
the valid range 1–5. -/
theorem paginated_page_validation_witness :
    executeStreams [⟨.time, List.replicate 500 0, .time, 500, .medium⟩] 6 100 .compact none
      = ToolResponse.invalidPage 1 (.fin 5) := by
  have h := (paginated_page_validation ⟨.time, List.replicate 500 0, .time, 500, .medium⟩ []
      .compact 100 (by norm_num) (by simp)).1 6
  norm_num at h
  exact h

/-- **C1**: in full-dataset chunked delivery (`points_per_page = -1`),
for total sample count `T ≥ 1` and the chunk size `S` returned by the
estimator, the assembler emits `ceil(T/S)` data chunks; chunk `i` carries
the `[i*S, min((i+1)*S, T))` slice of every active channel, and those
ranges cover `[0, T)` exactly once — no gaps, no overlaps. -/
theorem chunked_delivery_coverage (s0 : BaseStream) (rest : List BaseStream) (page : ℤ)
    (fmt : Format) (hT : 1 ≤ s0.data.length) :
    ∃ S cs,
      S = calculateOptimalChunkSize s0.data.length (s0 :: rest).length fmt none ∧
      responseChunks (executeStreams (s0 :: rest) page (-1) fmt none) = some cs ∧
      cs.length = (s0.data.length + S - 1) / S ∧
      (∀ i, i < cs.length → cs[i]? = some
        { ordinal := i, chunkStart := i * S, chunkEnd := min ((i + 1) * S) s0.data.length,
          data := (s0 :: rest).map (fun s => (s.type,
            formatStreamData fmt s.type (jsSlice s.data (i * S) (min ((i + 1) * S) s0.data.length)))) }) ∧
      (∀ k, k < s0.data.length →
        ∃! i, i < cs.length ∧ i * S ≤ k ∧ k < min ((i + 1) * S) s0.data.length) := by
  set T := s0.data.length with hTdef
  set S := calculateOptimalChunkSize T (s0 :: rest).length fmt none with hS
  have hS1 : 1 ≤ S := le_trans (by norm_num) (calculateOptimalChunkSize_mem T (s0 :: rest).length fmt none).1
  have hSpos : 0 < S := hS1
  set N := (T + S - 1) / S with hN
  have hchunks : responseChunks (executeStreams (s0 :: rest) page (-1) fmt none) =
      some ((List.range N).map (fun i =>
        { ordinal := i, chunkStart := i * S, chunkEnd := min (i * S + S) T,
          data := (s0 :: rest).map (fun s => (s.type,
            formatStreamData fmt s.type (jsSlice s.data (i * S) (min (i * S + S) T)))) })) := by
    unfold executeStreams
    dsimp only
    simp only [Bool.false_eq_true, if_false]
    rfl
  refine ⟨S, _, rfl, hchunks, ?_, ?_, ?_⟩
  · rw [List.length_map, List.length_range]
  · intro i hi
    simp only [List.length_map, List.length_range] at hi
    rw [List.getElem?_map, List.getElem?_range hi, Nat.succ_mul]
    rfl
  · intro k hk
    simp only [List.length_map, List.length_range]
    refine ⟨k / S, ⟨?_, ?_, ?_⟩, ?_⟩
    · -- k / S < N
      have h1 : k ≤ T - 1 := by omega
      have h2 : k / S ≤ (T - 1) / S := Nat.div_le_div_right h1
      have h3 : (T - 1) / S + 1 = (T - 1 + S) / S := (Nat.add_div_right _ hSpos).symm
      rw [show T - 1 + S = T + S - 1 from by omega] at h3
      omega
    · exact Nat.div_mul_le_self k S
    · refine lt_min ?_ hk
      have hmod : k % S < S := Nat.mod_lt _ hSpos
      have hdm : S * (k / S) + k % S = k := Nat.div_add_mod k S
      calc k = S * (k / S) + k % S := hdm.symm
        _ < S * (k / S) + S := by omega
        _ = (k / S + 1) * S := by ring
    · intro j hj
      obtain ⟨hjN, hjle, hjlt⟩ := hj
      have hjlt' : k < (j + 1) * S := lt_of_lt_of_le hjlt (min_le_left _ _)
      have h5 : j ≤ k / S := (Nat.le_div_iff_mul_le hSpos).mpr hjle
      have h6 : k / S < j + 1 := by
        rw [Nat.div_lt_iff_lt_mul hSpos]
        exact hjlt'
      omega

/-- Witness for **C1**: one 3-sample heart-rate channel in compact
format (chunk size 2000, a single chunk covering `[0, 3)`). -/
theorem chunked_delivery_coverage_witness :
    ∃ S cs,
      S = calculateOptimalChunkSize 3 1 Format.compact none ∧
      responseChunks (executeStreams [⟨.heartrate, [100, 110, 120], .time, 3, .medium⟩]
        1 (-1) .compact none) = some cs ∧
      cs.length = (3 + S - 1) / S ∧
      (∀ i, i < cs.length → cs[i]? = some
        { ordinal := i, chunkStart := i * S, chunkEnd := min ((i + 1) * S) 3,
          data := [(⟨.heartrate, [100, 110, 120], .time, 3, .medium⟩ : BaseStream)].map
            (fun s => (s.type,
              formatStreamData .compact s.type (jsSlice s.data (i * S) (min ((i + 1) * S) 3)))) }) ∧
      (∀ k, k < 3 → ∃! i, i < cs.length ∧ i * S ≤ k ∧ k < min ((i + 1) * S) 3) :=
  chunked_delivery_coverage ⟨.heartrate, [100, 110, 120], .time, 3, .medium⟩ [] 1 .compact
    (by norm_num)

/-- A settled per-activity outcome that the bulk meta counts as a
failure: a rejected fetch or a fulfilled fetch with no streams. -/
def bulkFetchFailed (r : ℕ × FetchOutcome) : Bool :=
  match r.2 with
  | .rejected => true
  | .fulfilled s => s.isEmpty

/-- `List.lookup` at the head key. -/
lemma lookup_cons_self {e : BulkEntry} {rest : List (ℕ × BulkEntry)} {id : ℕ} :
    List.lookup id ((id, e) :: rest) = some e := by
  simp [List.lookup]

/-- `List.lookup` skips a head entry with a different key. -/
lemma lookup_cons_ne {e : BulkEntry} {rest : List (ℕ × BulkEntry)} {id j : ℕ} (h : ¬ id = j) :
    List.lookup id ((j, e) :: rest) = List.lookup id rest := by
  simp only [List.lookup, beq_eq_false_iff_ne.mpr h]

/-- Non-error output entries and failed fetch outcomes partition the
request list. -/
lemma bulkOutput_success_count (fmt : BulkFormat) (rate : ℕ) (inc : Bool) :
    ∀ results : List (ℕ × FetchOutcome),
      ((bulkOutput fmt rate inc results).filter (fun p => p.2 != BulkEntry.errorNoData)).length
        + (results.filter bulkFetchFailed).length = results.length := by
  intro results
  induction results with
  | nil => rfl
  | cons r rs ih =>
    rcases r with ⟨i, o⟩
    cases o with
    | rejected =>
      simp only [bulkOutput, List.filterMap_cons, List.filter_cons] at *
      simp only [bulkFetchFailed, List.length_cons, if_true]
      omega
    | fulfilled s =>
      by_cases hs : s.isEmpty
      · simp only [bulkOutput, List.filterMap_cons, hs, if_true, List.filter_cons,
          List.length_cons, bulkFetchFailed] at *
        simp only [hs, bne_self_eq_false, Bool.false_eq_true, if_false, if_true]
        omega
      · simp only [bulkOutput, List.filterMap_cons, hs, if_false, List.filter_cons,
          List.length_cons, bulkFetchFailed, Bool.false_eq_true] at *
        simp only [List.filter_cons, show (BulkEntry.streams (s.map (processBulkStream fmt rate inc))
            != BulkEntry.errorNoData) = true from rfl, if_true, List.length_cons]
        omega

/-- An id that was never requested has no entry in the bulk output. -/
lemma bulkOutput_lookup_not_mem (fmt : BulkFormat) (rate : ℕ) (inc : Bool) (id : ℕ) :
    ∀ results : List (ℕ × FetchOutcome), id ∉ results.map Prod.fst →
      (bulkOutput fmt rate inc results).lookup id = none := by
  intro results
  induction results with
  | nil => intro _; rfl
  | cons r rs ih =>
    rcases r with ⟨j, o⟩
    intro h
    simp only [List.map_cons, List.mem_cons, not_or] at h
    obtain ⟨hne, hnot⟩ := h
    cases o with
    | rejected => exact ih hnot
    | fulfilled s =>
      by_cases hs : s.isEmpty
      · show List.lookup id (bulkOutput fmt rate inc ((j, .fulfilled s) :: rs)) = none
        simp only [bulkOutput, List.filterMap_cons, hs, if_true]
        rw [lookup_cons_ne hne]
        exact ih hnot
      · show List.lookup id (bulkOutput fmt rate inc ((j, .fulfilled s) :: rs)) = none
        simp only [bulkOutput, List.filterMap_cons, hs, Bool.false_eq_true, if_false]
        rw [lookup_cons_ne hne]
        exact ih hnot

/-- A rejected fetch leaves no entry in the bulk output — the loop's
`continue; // Skip failed fetches silently`. -/
lemma bulkOutput_lookup_rejected (fmt : BulkFormat) (rate : ℕ) (inc : Bool) (id : ℕ) :
    ∀ results : List (ℕ × FetchOutcome), (results.map Prod.fst).Nodup →
      (id, FetchOutcome.rejected) ∈ results →
      (bulkOutput fmt rate inc results).lookup id = none := by
  intro results
  induction results with
  | nil => intro _ hmem; cases hmem
  | cons r rs ih =>
    rcases r with ⟨j, o⟩
    intro hnd hmem
    simp only [List.map_cons, List.nodup_cons] at hnd
    obtain ⟨hj, hnd'⟩ := hnd
    rcases List.mem_cons.mp hmem with heq | hmem'
    · cases heq
      exact bulkOutput_lookup_not_mem fmt rate inc id rs hj
    · have hid : id ∈ rs.map Prod.fst := List.mem_map.mpr ⟨(id, .rejected), hmem', rfl⟩
      have hne : ¬ id = j := fun h => hj (h ▸ hid)
      cases o with
      | rejected => exact ih hnd' hmem'
      | fulfilled s =>
        by_cases hs : s.isEmpty
        · show List.lookup id (bulkOutput fmt rate inc ((j, .fulfilled s) :: rs)) = none
          simp only [bulkOutput, List.filterMap_cons, hs, if_true]
          rw [lookup_cons_ne hne]
          exact ih hnd' hmem'
        · show List.lookup id (bulkOutput fmt rate inc ((j, .fulfilled s) :: rs)) = none
          simp only [bulkOutput, List.filterMap_cons, hs, Bool.false_eq_true, if_false]
          rw [lookup_cons_ne hne]
          exact ih hnd' hmem'
/-- A fulfilled fetch gets exactly one entry: the `no_data` marker when
it carried no streams, its processed streams otherwise. -/
lemma bulkOutput_lookup_fulfilled (fmt : BulkFormat) (rate : ℕ) (inc : Bool) (id : ℕ)
    (strs : List BaseStream) :
    ∀ results : List (ℕ × FetchOutcome), (results.map Prod.fst).Nodup →
      (id, FetchOutcome.fulfilled strs) ∈ results →
      (bulkOutput fmt rate inc results).lookup id =
        (if strs.isEmpty then some BulkEntry.errorNoData
         else some (.streams (strs.map (processBulkStream fmt rate inc)))) := by
  intro results
  induction results with
  | nil => intro _ hmem; cases hmem
  | cons r rs ih =>
    rcases r with ⟨j, o⟩
    intro hnd hmem
    simp only [List.map_cons, List.nodup_cons] at hnd
    obtain ⟨hj, hnd'⟩ := hnd
    rcases List.mem_cons.mp hmem with heq | hmem'
    · cases heq
      by_cases hs : strs.isEmpty
      · simp only [bulkOutput, List.filterMap_cons, hs, if_true]
        exact lookup_cons_self
      · simp only [bulkOutput, List.filterMap_cons, hs, Bool.false_eq_true, if_false]
        exact lookup_cons_self
    · have hid : id ∈ rs.map Prod.fst := List.mem_map.mpr ⟨(id, .fulfilled strs), hmem', rfl⟩
      have hne : ¬ id = j := fun h => hj (h ▸ hid)
      cases o with
      | rejected => exact ih hnd' hmem'
      | fulfilled s =>
        by_cases hs : s.isEmpty
        · show List.lookup id (bulkOutput fmt rate inc ((j, .fulfilled s) :: rs)) = _
          simp only [bulkOutput, List.filterMap_cons, hs, if_true]
          rw [lookup_cons_ne hne]
          exact ih hnd' hmem'
        · show List.lookup id (bulkOutput fmt rate inc ((j, .fulfilled s) :: rs)) = _
          simp only [bulkOutput, List.filterMap_cons, hs, Bool.false_eq_true, if_false]
          rw [lookup_cons_ne hne]
          exact ih hnd' hmem'

/-- **C8** (amended): the bulk assembler never fails the whole batch —
it always returns a response in which every activity that fetched
successfully with data carries its reduced streams and every activity
that resolved empty carries the explicit `{error: 'no_data'}` marker;
but an activity whose fetch was *rejected* is silently omitted from the
per-activity data (no error marker), surviving only in the aggregate
fail count. -/
theorem bulkExecute_partial_failure (results : List (ℕ × FetchOutcome)) (types : List StreamType)
    (fmt : BulkFormat) (rate : ℕ) (incStats : Bool)
    (hnd : (results.map Prod.fst).Nodup) :
    (bulkExecute results types fmt rate incStats).meta.fail
        = (results.filter bulkFetchFailed).length ∧
    (∀ id strs, (id, FetchOutcome.fulfilled strs) ∈ results → strs ≠ [] →
      (bulkExecute results types fmt rate incStats).data.lookup id
        = some (.streams (strs.map (processBulkStream fmt rate incStats)))) ∧
    (∀ id, (id, FetchOutcome.rejected) ∈ results →
      (bulkExecute results types fmt rate incStats).data.lookup id = none) ∧
    (∀ id strs, (id, FetchOutcome.fulfilled strs) ∈ results → strs = [] →
      (bulkExecute results types fmt rate incStats).data.lookup id
        = some BulkEntry.errorNoData) := by
  refine ⟨?_, ?_, ?_, ?_⟩
  · show results.length -
        ((bulkOutput fmt rate incStats results).filter
          (fun p => p.2 != BulkEntry.errorNoData)).length = _
    have := bulkOutput_success_count fmt rate incStats results
    omega
  · intro id strs hmem hne
    show (bulkOutput fmt rate incStats results).lookup id = _
    rw [bulkOutput_lookup_fulfilled fmt rate incStats id strs results hnd hmem,
      if_neg (by simpa [List.isEmpty_iff] using hne)]
  · intro id hmem
    exact bulkOutput_lookup_rejected fmt rate incStats id results hnd hmem
  · intro id strs hmem he
    show (bulkOutput fmt rate incStats results).lookup id = _
    rw [bulkOutput_lookup_fulfilled fmt rate incStats id strs results hnd hmem,
      if_pos (by simp [he])]

/-- **C8** (counterexample): with activity 1 fulfilled and activity 2
rejected, the response maps activity 1 to its data and has *no entry at
all* for activity 2 — no per-activity error marker, contradicting the
claim; the failure shows up only as `fail = 1` in the meta counters. -/
theorem bulkExecute_silent_skip_cex :
    (bulkExecute [(1, .fulfilled [⟨.heartrate, [100, 110], .time, 2, .medium⟩]), (2, .rejected)]
        [.heartrate] .stats_only 10 false).data.lookup 2 = none ∧
    (bulkExecute [(1, .fulfilled [⟨.heartrate, [100, 110], .time, 2, .medium⟩]), (2, .rejected)]
        [.heartrate] .stats_only 10 false).meta.fail = 1 ∧
    (bulkExecute [(1, .fulfilled [⟨.heartrate, [100, 110], .time, 2, .medium⟩]), (2, .rejected)]
        [.heartrate] .stats_only 10 false).data.lookup 1
      = some (.streams [(.heartrate, .countOnly 2)]) := by
  refine ⟨by decide, by decide, by decide⟩

/-- Witness for the amended **C8** at a three-activity batch
(one fulfilled with data, one rejected, one fulfilled empty). -/
theorem bulkExecute_partial_failure_witness :
    (bulkExecute [(1, .fulfilled [⟨.heartrate, [100, 110], .time, 2, .medium⟩]),
        (2, .rejected), (3, .fulfilled [])] [.heartrate] .compact 10 true).meta.fail
      = ([( (1:ℕ), FetchOutcome.fulfilled [⟨.heartrate, [100, 110], .time, 2, .medium⟩]),
        (2, .rejected), (3, .fulfilled [])].filter bulkFetchFailed).length ∧
    (∀ id strs, (id, FetchOutcome.fulfilled strs) ∈
        [((1:ℕ), FetchOutcome.fulfilled [⟨.heartrate, [100, 110], .time, 2, .medium⟩]),
          (2, .rejected), (3, .fulfilled [])] → strs ≠ [] →
      (bulkExecute [(1, .fulfilled [⟨.heartrate, [100, 110], .time, 2, .medium⟩]),
          (2, .rejected), (3, .fulfilled [])] [.heartrate] .compact 10 true).data.lookup id
        = some (.streams (strs.map (processBulkStream .compact 10 true)))) ∧
    (∀ id, (id, FetchOutcome.rejected) ∈
        [((1:ℕ), FetchOutcome.fulfilled [⟨.heartrate, [100, 110], .time, 2, .medium⟩]),
          (2, .rejected), (3, .fulfilled [])] →
      (bulkExecute [(1, .fulfilled [⟨.heartrate, [100, 110], .time, 2, .medium⟩]),
          (2, .rejected), (3, .fulfilled [])] [.heartrate] .compact 10 true).data.lookup id = none) ∧
    (∀ id strs, (id, FetchOutcome.fulfilled strs) ∈
        [((1:ℕ), FetchOutcome.fulfilled [⟨.heartrate, [100, 110], .time, 2, .medium⟩]),
          (2, .rejected), (3, .fulfilled [])] → strs = [] →
      (bulkExecute [(1, .fulfilled [⟨.heartrate, [100, 110], .time, 2, .medium⟩]),
          (2, .rejected), (3, .fulfilled [])] [.heartrate] .compact 10 true).data.lookup id
        = some BulkEntry.errorNoData) :=
  bulkExecute_partial_failure _ [.heartrate] .compact 10 true (by decide)

end StravaMCP
